import Mathlib

/-!
Shallow embedding of the go-envir remote execution / deployment tool
(package `ssh`: transfer engine, package `runner`: execution engine),
together with theorems settling the specification claims.

Conventions of the embedding:
* Byte strings are `List Nat` (one `Nat` per byte).
* The SHA-256 function is an abstract parameter `h : List Nat → String`
  (the code only ever compares digests for equality; the hash itself is
  computed by the Go standard library `crypto/sha256` + hex encoding).
* Remote-side effects (command exit status, captured stdout/stderr,
  per-file transfer outcomes) are explicit environment parameters, so
  every source function becomes a pure Lean function from its inputs and
  an environment to its observable result.
* Fallible Go functions returning `error` become `Except String _` or an
  `Option String` error component; the error strings mirror the
  `fmt.Errorf` format strings of the source.
-/

namespace Envir

/-- Bytes of an ASCII string, one `Nat` per character. -/
def strBytes (s : String) : List Nat := s.toList.map Char.toNat

/-- Split a character list at every character satisfying `p`
(the separators are dropped; adjacent separators give empty pieces). -/
def splitCharsAux (p : Char → Bool) : List Char → List Char → List (List Char)
  | [], acc => [acc.reverse]
  | c :: cs, acc =>
    if p c then acc.reverse :: splitCharsAux p cs []
    else splitCharsAux p cs (c :: acc)

/-- Split a string at every character satisfying `p`. -/
def splitChars (p : Char → Bool) (s : String) : List String :=
  (splitCharsAux p s.data []).map String.mk

/-- Go `strings.TrimSpace`: strip leading and trailing whitespace. -/
def trimSpace (s : String) : String :=
  String.mk (((s.data.dropWhile Char.isWhitespace).reverse.dropWhile Char.isWhitespace).reverse)

/-- Go `filepath.Base` for slash-separated paths: empty path gives ".",
trailing slashes are dropped, an all-slash path gives "/". -/
def baseName (path : String) : String :=
  if path = "" then "."
  else
    match ((splitCharsAux (fun c => c = '/') path.data []).filter (fun c => c ≠ [])).getLast? with
    | some b => String.mk b
    | none => "/"

/-- Go `strings.Fields`: whitespace-separated tokens. -/
def fields (s : String) : List String :=
  (splitChars Char.isWhitespace s).filter (fun t => t ≠ "")

/-- Go `strings.TrimPrefix`: drop `p` from the front of `s` when present. -/
def trimPrefixStr (s p : String) : String :=
  if p.data.isPrefixOf s.data then String.mk (s.data.drop p.data.length) else s

/-- Split a character list at the first ':' (payload of Go
`strings.SplitN(s, ":", 2)`): `none` when no colon occurs. -/
def splitFirstColon : List Char → Option (List Char × List Char)
  | [] => none
  | c :: cs =>
    if c = ':' then some ([], cs)
    else
      match splitFirstColon cs with
      | some (l, r) => some (c :: l, r)
      | none => none

/-- Go `strings.SplitN(s, ":", 2)`: two pieces around the first colon,
or the single piece `[s]` when `s` has no colon. -/
def splitN2 (s : String) : List String :=
  match splitFirstColon s.data with
  | some (l, r) => [String.mk l, String.mk r]
  | none => [s]

/-- Go `filepath.Join` restricted to the clean relative paths produced by
the walk (simple slash concatenation). -/
def joinPath (a b : String) : String := a ++ "/" ++ b

/-- Association-list lookup (model of Go map read `m[k]`). -/
def lookupA (m : List (String × String)) (k : String) : Option String :=
  match m with
  | [] => none
  | (k2, v) :: rest => if k2 = k then some v else lookupA rest k

/-- Association-list insert (model of Go map write `m[k] = v`:
the newest binding wins). -/
def insertA (m : List (String × String)) (k v : String) : List (String × String) :=
  (k, v) :: m.filter (fun p => p.1 ≠ k)

/-! ## Transport session primitives (`internal/ssh`, part_004) -/

/-- Outcome of one remote command: exit status plus captured streams. -/
structure CmdResult where
  ok : Bool
  outStr : String
  errStr : String
deriving DecidableEq, Repr

/-- Outcome of one scp sink-mode session: whether `session.Wait()`
succeeded, the wait error text otherwise and the captured stderr. -/
structure ScpOutcome where
  ok : Bool
  waitErr : String
  errTail : String
deriving DecidableEq, Repr

/-- The scp sink-mode header line `C0644 <byte-length> <basename>\n`
written by `uploadBytes` / `uploadFile`. -/
def scpHeader (len : Nat) (base : String) : String :=
  "C0644 " ++ toString len ++ " " ++ base ++ "\n"

/-- The full byte stream a sink-mode transfer writes to the remote
process: header line, exact content bytes, single NUL terminator. -/
def scpStream (content : List Nat) (base : String) : List Nat :=
  strBytes (scpHeader content.length base) ++ content ++ [0]

/-- Model of `Client.uploadBytes`: write the framed stream, close the write side,
wait for the remote exit; a non-zero exit is reported with the captured
stderr.  Returns the bytes written and the Go error result. -/
def uploadBytes (content : List Nat) (remotePath : String) (scp : ScpOutcome) :
    List Nat × Except String Unit :=
  let stream := scpStream content (baseName remotePath)
  if scp.ok then (stream, .ok ())
  else (stream, .error ("scp failed: " ++ scp.waitErr ++ " (stderr: " ++ scp.errTail ++ ")"))

/-- Model of `Client.getRemoteChecksum`: run
`sha256sum <p> 2>/dev/null || shasum -a 256 <p> 2>/dev/null` and parse the
first whitespace-delimited token of stdout as the digest. -/
def getRemoteChecksum (res : CmdResult) : Except String String :=
  if res.ok then
    match fields (trimSpace res.outStr) with
    | [] => .error ("unexpected checksum output: " ++ trimSpace res.outStr)
    | t :: _ => .ok t
  else .error ("checksum command failed (stderr: " ++ res.errStr ++ ")")

/-- Remote-side environment of one `uploadFile` call: the scp session
outcome and the result of the post-transfer checksum query. -/
structure FileTransferEnv where
  scp : ScpOutcome
  checkRes : CmdResult
deriving DecidableEq, Repr

/-- Model of `Client.uploadFile`: compute the local SHA-256, transfer the file
over the sink-mode protocol, then re-query the remote digest and fail
with a checksum-mismatch error when it differs from the local digest.
Returns the bytes written to the remote process and the Go error
result. -/
def uploadFile (h : List Nat → String) (content : List Nat) (remotePath : String)
    (env : FileTransferEnv) : List Nat × Except String Unit :=
  let localHashStr := h content
  let stream := scpStream content (baseName remotePath)
  if env.scp.ok then
    match getRemoteChecksum env.checkRes with
    | .error e => (stream, .error ("failed to verify remote checksum: " ++ e))
    | .ok remoteHashStr =>
      if localHashStr ≠ remoteHashStr then
        (stream, .error ("checksum mismatch: local=" ++ localHashStr ++ ", remote=" ++ remoteHashStr))
      else (stream, .ok ())
  else
    (stream, .error ("scp failed: " ++ env.scp.waitErr ++ " (stderr: " ++ env.scp.errTail ++ ")"))

/-! ## Checksum-differential directory upload (`Client.UploadDir`) -/

/-- Parse the output of the remote directory checksum query
(`find <dir> -type f -exec sha256sum {} \;` with the shasum fallback):
for every line with at least two fields, first token is the digest,
second the absolute path, stored under the dir-relative path. -/
def parseDirChecksums (remoteDir : String) (out : String) : List (String × String) :=
  (splitChars (fun c => c = '\n') out).foldl
    (fun acc line =>
      match fields line with
      | hash :: path :: _ => insertA acc (trimPrefixStr path (remoteDir ++ "/")) hash
      | _ => acc)
    []

/-- Model of `Client.getRemoteDirChecksums`: one remote command; an error result
when the command fails, otherwise the parsed path→digest mapping. -/
def getRemoteDirChecksums (remoteDir : String) (res : CmdResult) :
    Except String (List (String × String)) :=
  if res.ok then .ok (parseDirChecksums remoteDir res.outStr)
  else .error ("find checksum command failed: " ++ res.errStr)

/-- One entry of the local tree, in `filepath.Walk` visit order. -/
inductive FsEntry where
  | dirE (relPath : String)
  | fileE (relPath : String) (content : List Nat)
deriving DecidableEq, Repr

/-- Relative paths of the file entries, in walk order. -/
def filePaths (entries : List FsEntry) : List String :=
  entries.filterMap (fun e =>
    match e with
    | .fileE rel _ => some rel
    | .dirE _ => none)

/-- Relative paths of the file entries whose local digest does NOT match
the remote mapping (the files the differential algorithm uploads). -/
def changedPaths (h : List Nat → String) (mapping : List (String × String))
    (entries : List FsEntry) : List String :=
  entries.filterMap (fun e =>
    match e with
    | .fileE rel c => if lookupA mapping rel = some (h c) then none else some rel
    | .dirE _ => none)

/-- Number of file entries whose local digest matches the remote mapping
(the files the differential algorithm skips). -/
def matchCount (h : List Nat → String) (mapping : List (String × String))
    (entries : List FsEntry) : Nat :=
  (entries.filter (fun e =>
    match e with
    | .fileE rel c => decide (lookupA mapping rel = some (h c))
    | .dirE _ => false)).length

/-- Remote-side environment of one `UploadDir` call. -/
structure DirUploadEnv where
  mkRootOk : Bool
  queryRes : CmdResult
  mkdirOk : String → Bool
  fileEnv : String → FileTransferEnv

/-- Result of one `UploadDir` call.  `ret` is exactly the pair the Go
function returns to its caller (`uploaded` count and optional error);
`uploaded`, `skipped` and `sent` are the internal observations:
the two local counters and the relative paths actually transferred. -/
structure DirResult where
  uploaded : Nat
  skipped : Nat
  sent : List String
  ret : Nat × Option String
deriving DecidableEq, Repr

/-- The `filepath.Walk` body of `UploadDir`: directories get a remote
`mkdir -p`; a file whose digest matches the mapping is skipped; any
other file is transferred with `uploadFile`; the first error aborts the
walk. -/
def walkEntries (h : List Nat → String) (mapping : List (String × String))
    (remoteDir : String) (env : DirUploadEnv) :
    List FsEntry → Nat → Nat → List String → Nat × Nat × List String × Option String
  | [], up, sk, sent => (up, sk, sent, none)
  | .dirE rel :: rest, up, sk, sent =>
    if env.mkdirOk (joinPath remoteDir rel) then walkEntries h mapping remoteDir env rest up sk sent
    else (up, sk, sent, some ("failed to create remote directory: " ++ joinPath remoteDir rel))
  | .fileE rel c :: rest, up, sk, sent =>
    if lookupA mapping rel = some (h c) then
      walkEntries h mapping remoteDir env rest up (sk + 1) sent
    else
      match (uploadFile h c (joinPath remoteDir rel) (env.fileEnv rel)).2 with
      | .error e => (up, sk, sent ++ [rel], some e)
      | .ok _ => walkEntries h mapping remoteDir env rest (up + 1) sk (sent ++ [rel])

/-- The path→digest mapping `UploadDir` works with: the parsed query
result, or the empty mapping when the remote query failed (a new remote
directory is not an error). -/
def effMapping (remoteDir : String) (res : CmdResult) : List (String × String) :=
  match getRemoteDirChecksums remoteDir res with
  | .error _ => []
  | .ok m => m

/-- Model of `Client.UploadDir`: create the remote root, query the remote
directory checksums once (substituting an empty mapping when the query
fails), then walk the local tree uploading only changed or absent files;
returns the uploaded count and the first error. -/
def uploadDir (h : List Nat → String) (entries : List FsEntry) (remoteDir : String)
    (env : DirUploadEnv) : DirResult :=
  if env.mkRootOk then
    let mapping := effMapping remoteDir env.queryRes
    let r := walkEntries h mapping remoteDir env entries 0 0 []
    { uploaded := r.1, skipped := r.2.1, sent := r.2.2.1, ret := (r.1, r.2.2.2) }
  else
    { uploaded := 0, skipped := 0, sent := [],
      ret := (0, some "failed to create remote directory") }

/-! ## Atomic tar archive upload (`Client.UploadDirTar`) -/

/-- The three commands of the remote extraction pipeline. -/
inductive RCmd where
  | mkdirP (d : String)
  | tarXzf (archive : String) (dir : String)
  | rmF (f : String)
deriving DecidableEq, Repr

/-- The extraction pipeline issued by `UploadDirTar`, in order:
create the destination, extract the archive into it, delete the temp
archive. -/
def extractChain (destDir tmpArchive : String) : List RCmd :=
  [.mkdirP destDir, .tarXzf tmpArchive destDir, .rmF tmpArchive]

/-- POSIX-shell semantics of commands joined with `&&`: each command
runs only if every earlier one succeeded.  Returns the commands actually
executed and whether the whole chain succeeded. -/
def execChain (outcome : RCmd → Bool) : List RCmd → List RCmd × Bool
  | [] => ([], true)
  | c :: cs =>
    if outcome c then
      let r := execChain outcome cs
      (c :: r.1, r.2)
    else ([c], false)

/-- The temp archive path `/tmp/envir-<first-8-hex-of-sha256>.tar.gz`. -/
def tarTmpPath (hashStr : String) : String :=
  "/tmp/envir-" ++ String.mk (hashStr.data.take 8) ++ ".tar.gz"

/-- Remote-side environment of one `UploadDirTar` call. -/
structure TarUploadEnv where
  scp : ScpOutcome
  outcome : RCmd → Bool
  runErrText : String
  extractStderr : String

/-- Result of one `UploadDirTar` call: the temp path used, the remote
shell commands issued via `Run` (one string per `Run` call), the
pipeline commands the remote shell actually executed, and the Go error
result. -/
structure TarUploadResult where
  tmpPath : String
  issued : List String
  executed : List RCmd
  res : Except String Unit

/-- Model of `Client.UploadDirTar` after the in-memory tar.gz archive has been
built (the archive bytes are the `tarContent` input): compute the
archive's SHA-256, upload it to the temp path with `uploadBytes`, then
issue exactly one remote command
`mkdir -p <destDir> && tar -xzf <tmp> -C <destDir> && rm -f <tmp>`;
a failing pipeline is surfaced with the captured stderr. -/
def uploadDirTar (h : List Nat → String) (tarContent : List Nat) (remoteDir : String)
    (env : TarUploadEnv) : TarUploadResult :=
  let tmp := tarTmpPath (h tarContent)
  match (uploadBytes tarContent tmp env.scp).2 with
  | .error e => { tmpPath := tmp, issued := [], executed := [], res := .error ("failed to upload tar: " ++ e) }
  | .ok _ =>
    let extractCmd :=
      "mkdir -p " ++ remoteDir ++ " && tar -xzf " ++ tmp ++ " -C " ++ remoteDir ++ " && rm -f " ++ tmp
    let r := execChain env.outcome (extractChain remoteDir tmp)
    { tmpPath := tmp, issued := [extractCmd], executed := r.1,
      res :=
        if r.2 then .ok ()
        else .error ("failed to extract tar: " ++ env.runErrText ++ " (stderr: " ++ env.extractStderr ++ ")") }

/-! ## Script steps and step dispatch (`internal/runner`, part_006) -/

/-- A script step of a task: the five optional fields of the Go
`config.Script` struct (empty string = unset). -/
structure Script where
  Local : String
  Upload : String
  UploadDir : String
  UploadTar : String
  Run : String
deriving DecidableEq, Repr

/-- The single action a step dispatches to. -/
inductive StepAction where
  | localA (cmd : String)
  | uploadA (localPath remotePath : String)
  | uploadDirA (localPath remotePath : String)
  | uploadTarA (localPath remotePath : String)
  | runA (cmd : String)
deriving DecidableEq, Repr

/-- The dispatch logic of `Runner.runScript`: the first non-empty field
in the order local, upload, upload_dir, upload_tar, run selects the
action; upload-type fields are split at the first ':' and rejected with
a configuration error when the split does not yield two parts; a step
with no field set is a no-op (`.ok none`), touching no client. -/
def runScriptChoose (sc : Script) : Except String (Option StepAction) :=
  if sc.Local ≠ "" then .ok (some (.localA sc.Local))
  else if sc.Upload ≠ "" then
    match splitN2 sc.Upload with
    | [l, r] => .ok (some (.uploadA l r))
    | _ => .error ("invalid upload format: " ++ sc.Upload ++ " (expected 'local:remote')")
  else if sc.UploadDir ≠ "" then
    match splitN2 sc.UploadDir with
    | [l, r] => .ok (some (.uploadDirA l r))
    | _ => .error ("invalid upload_dir format: " ++ sc.UploadDir ++ " (expected 'local:remote')")
  else if sc.UploadTar ≠ "" then
    match splitN2 sc.UploadTar with
    | [l, r] => .ok (some (.uploadTarA l r))
    | _ => .error ("invalid upload_tar format: " ++ sc.UploadTar ++ " (expected 'local:remote')")
  else if sc.Run ≠ "" then .ok (some (.runA sc.Run))
  else .ok none

/-! ## Sequential execution (`Runner.runSequential`) -/

/-- Loop body of a single host in `runSequential`: run the script steps
with the given indices in order on host `s`, stopping at the first
failure.  Returns the trace of attempted `(host, stepIndex)` pairs and
the first error. -/
def runHostSteps (s : String) (exec : String → Nat → Except String Unit) :
    List Nat → List (String × Nat) × Except String Unit
  | [] => ([], .ok ())
  | i :: rest =>
    match exec s i with
    | .error e => ([(s, i)], .error e)
    | .ok _ =>
      let r := runHostSteps s exec rest
      ((s, i) :: r.1, r.2)

/-- Model of `Runner.runSequential`: hosts in declared order; on each host every
script step index `0, …, stepCount-1` in order; a host name missing from
the config or the first failing step ends the task with an error naming
that host.  Returns the trace of attempted `(host, stepIndex)` pairs and
the task result.  `known` is config membership, `exec` the outcome of
running step `i` on a host. -/
def runSequential (servers : List String) (known : String → Bool) (stepCount : Nat)
    (exec : String → Nat → Except String Unit) :
    List (String × Nat) × Except String Unit :=
  match servers with
  | [] => ([], .ok ())
  | s :: rest =>
    if known s then
      match runHostSteps s exec (List.range stepCount) with
      | (tr, .error e) => (tr, .error ("[" ++ s ++ "] script failed: " ++ e))
      | (tr, .ok _) =>
        let r := runSequential rest known stepCount exec
        (tr ++ r.1, r.2)
    else ([], .error ("server '" ++ s ++ "' not found"))

/-! ## Parallel execution (`Runner.runParallel`) -/

/-- The deterministic result of one worker's full script sequence on
one host: the content of its private output buffer and its optional
error. -/
structure WorkerOut where
  buf : String
  err : Option String

/-- Shared state touched by the workers: the results map guarded by
`resultsMu`, the buffered error channel, and the wait-group completion
count. -/
structure ParState where
  results : List (String × String)
  errCh : List String
  done : Nat

/-- The shared-state commit of worker `i`: on failure it first sends its
host-tagged error to the channel; in every case it stores its private
buffer in the results map and signals the wait group. -/
def workerCommit (servers : List String) (work : String → WorkerOut) (i : Nat)
    (st : ParState) : ParState :=
  match servers[i]? with
  | none => st
  | some s =>
    let w := work s
    let st1 :=
      match w.err with
      | some e => { st with errCh := st.errCh ++ ["[" ++ s ++ "] " ++ e] }
      | none => st
    { st1 with results := (s, w.buf) :: st1.results, done := st1.done + 1 }

/-- Model of `Runner.runParallel`: one worker per declared host, each writing to
a private buffer; `sched` is the nondeterministic order in which the
workers commit (complete).  After the wait group releases, buffers are
flushed to the sink in declared host order and the first channel error
(worker-completion order) is returned.  A host missing from the config
aborts before the wait. -/
def runParallel (servers : List String) (known : String → Bool)
    (work : String → WorkerOut) (sched : List Nat) :
    List String × Option String :=
  match servers.find? (fun s => ! known s) with
  | some s => ([], some ("server '" ++ s ++ "' not found"))
  | none =>
    let final := sched.foldl (fun st i => workerCommit servers work i st) ⟨[], [], 0⟩
    let sink := servers.filterMap (fun s => lookupA final.results s)
    (sink, final.errCh.head?)

/-- Wait-group count after all scheduled workers committed. -/
def doneCount (servers : List String) (work : String → WorkerOut) (sched : List Nat) : Nat :=
  (sched.foldl (fun st i => workerCommit servers work i st) ⟨[], [], 0⟩).done

/-- The host-tagged errors of the failing workers, in worker-completion
(`sched`) order. -/
def completionErrors (servers : List String) (work : String → WorkerOut)
    (sched : List Nat) : List String :=
  sched.filterMap (fun i =>
    servers[i]?.bind (fun s => (work s).err.map (fun e => "[" ++ s ++ "] " ++ e)))

/-! ## Theorems: single-file upload (C1, C6, C4 single-file part) -/

/-- Claim C1: for every single-file upload of the verified upload
operation, the operation succeeds only if the re-queried remote SHA-256
digest equals the local digest, and a mismatch yields the
checksum-mismatch error — never a silent success. -/
theorem claim_C1_uploadFile_verifies_digest (h : List Nat → String) (c : List Nat)
    (p : String) (env : FileTransferEnv) :
    ((uploadFile h c p env).2 = .ok () → getRemoteChecksum env.checkRes = .ok (h c))
    ∧ (∀ d : String, env.scp.ok = true → getRemoteChecksum env.checkRes = .ok d →
        d ≠ h c →
        (uploadFile h c p env).2
          = .error ("checksum mismatch: local=" ++ h c ++ ", remote=" ++ d)) := by
  constructor
  · intro hres
    by_cases hok : env.scp.ok
    · cases hq : getRemoteChecksum env.checkRes with
      | error e => simp [uploadFile, hok, hq] at hres
      | ok d =>
        by_cases hde : h c = d
        · subst hde; rfl
        · simp [uploadFile, hok, hq, hde] at hres
    · simp [uploadFile, hok] at hres
  · intro d hok hq hne
    have hne2 : ¬ h c = d := fun heq => hne heq.symm
    simp [uploadFile, hok, hq, hne2]

/-- Witness for C1 at a concrete input: local digest `h1`, remote
digest `h9`, transfer succeeded — result is the mismatch error. -/
theorem claim_C1_witness :
    (uploadFile (fun c => "h" ++ toString c.length) [7] "/r/f"
        ⟨⟨true, "", ""⟩, ⟨true, "h9 /r/f", ""⟩⟩).2
      = .error "checksum mismatch: local=h1, remote=h9" := by
  have h2 := (claim_C1_uploadFile_verifies_digest (fun c => "h" ++ toString c.length)
      [7] "/r/f" ⟨⟨true, "", ""⟩, ⟨true, "h9 /r/f", ""⟩⟩).2 "h9" rfl rfl (by decide)
  simpa using h2

/-- Claim C6: a sink-mode transfer writes exactly the header line
`C0644 <byte-length> <basename>\n`, then the exact file bytes, then one
NUL byte; a non-zero remote exit is reported as a failure carrying the
captured remote stderr.  Both `uploadBytes` and `uploadFile` frame the
stream this way. -/
theorem claim_C6_sink_protocol_framing (c : List Nat) (p : String) (scp : ScpOutcome) :
    (uploadBytes c p scp).1
      = strBytes ("C0644 " ++ toString c.length ++ " " ++ baseName p ++ "\n") ++ c ++ [0]
    ∧ (scp.ok = false →
        (uploadBytes c p scp).2
          = .error ("scp failed: " ++ scp.waitErr ++ " (stderr: " ++ scp.errTail ++ ")"))
    ∧ (scp.ok = true → (uploadBytes c p scp).2 = .ok ())
    ∧ (∀ (h : List Nat → String) (env : FileTransferEnv),
        (uploadFile h c p env).1
          = strBytes ("C0644 " ++ toString c.length ++ " " ++ baseName p ++ "\n") ++ c ++ [0]) := by
  refine ⟨?_, ?_, ?_, ?_⟩
  · by_cases hok : scp.ok <;> simp [uploadBytes, scpStream, scpHeader, hok]
  · intro hok; simp [uploadBytes, hok]
  · intro hok; simp [uploadBytes, hok]
  · intro h env
    by_cases hok : env.scp.ok
    · cases hq : getRemoteChecksum env.checkRes with
      | error e => simp [uploadFile, scpStream, scpHeader, hok, hq]
      | ok d =>
        by_cases hde : h c = d <;> simp [uploadFile, scpStream, scpHeader, hok, hq, hde]
    · simp [uploadFile, scpStream, scpHeader, hok]

/-- Witness for C6 at a concrete input: two content bytes, a failing
remote exit. -/
theorem claim_C6_witness :
    (uploadBytes [65, 66] "/a/f.txt" ⟨false, "exit 1", "scp: err"⟩).1
      = strBytes "C0644 2 f.txt\n" ++ [65, 66] ++ [0]
    ∧ (uploadBytes [65, 66] "/a/f.txt" ⟨false, "exit 1", "scp: err"⟩).2
      = .error "scp failed: exit 1 (stderr: scp: err)" := by
  have hthm := claim_C6_sink_protocol_framing [65, 66] "/a/f.txt" ⟨false, "exit 1", "scp: err"⟩
  exact ⟨by simpa using hthm.1, by simpa using hthm.2.1 rfl⟩

/-! ## Theorems: atomic tar archive upload (C5) -/

/-- Claim C5: the archive is sent to
`/tmp/envir-<first-8-hex-of-its-sha256>.tar.gz`; afterwards exactly one
remote command `mkdir -p <dest> && tar -xzf <tmp> -C <dest> && rm -f <tmp>`
is issued, and when directory creation or extraction fails the `rm -f`
cleanup is never executed and the failure carries the captured stderr. -/
theorem claim_C5_uploadDirTar_temp_path_and_chain (h : List Nat → String)
    (tarContent : List Nat) (remoteDir : String) (env : TarUploadEnv) :
    (uploadDirTar h tarContent remoteDir env).tmpPath
      = "/tmp/envir-" ++ String.mk ((h tarContent).data.take 8) ++ ".tar.gz"
    ∧ (env.scp.ok = true →
        (uploadDirTar h tarContent remoteDir env).issued
          = ["mkdir -p " ++ remoteDir ++ " && tar -xzf " ++ tarTmpPath (h tarContent)
              ++ " -C " ++ remoteDir ++ " && rm -f " ++ tarTmpPath (h tarContent)])
    ∧ (env.scp.ok = true → env.outcome (.mkdirP remoteDir) = false →
        RCmd.rmF (tarTmpPath (h tarContent)) ∉ (uploadDirTar h tarContent remoteDir env).executed
        ∧ (uploadDirTar h tarContent remoteDir env).res
            = .error ("failed to extract tar: " ++ env.runErrText
                ++ " (stderr: " ++ env.extractStderr ++ ")"))
    ∧ (env.scp.ok = true → env.outcome (.mkdirP remoteDir) = true →
        env.outcome (.tarXzf (tarTmpPath (h tarContent)) remoteDir) = false →
        RCmd.rmF (tarTmpPath (h tarContent)) ∉ (uploadDirTar h tarContent remoteDir env).executed
        ∧ (uploadDirTar h tarContent remoteDir env).res
            = .error ("failed to extract tar: " ++ env.runErrText
                ++ " (stderr: " ++ env.extractStderr ++ ")")) := by
  refine ⟨?_, ?_, ?_, ?_⟩
  · by_cases hok : env.scp.ok <;>
      simp [uploadDirTar, uploadBytes, tarTmpPath, hok]
  · intro hok
    simp [uploadDirTar, uploadBytes, hok]
  · intro hok hmk
    simp [uploadDirTar, uploadBytes, extractChain, execChain, hok, hmk]
  · intro hok hmk htar
    simp [uploadDirTar, uploadBytes, extractChain, execChain, hok, hmk, htar]

/-- Witness for C5 at a concrete input: extraction fails after a
successful upload, the cleanup is skipped and the stderr surfaced. -/
theorem claim_C5_witness :
    RCmd.rmF "/tmp/envir-01234567.tar.gz"
      ∉ (uploadDirTar (fun _ => "0123456789abcdef") [1, 2] "/srv/app"
          ⟨⟨true, "", ""⟩, fun c => c = .mkdirP "/srv/app", "exit 2", "tar: bad gz"⟩).executed
    ∧ (uploadDirTar (fun _ => "0123456789abcdef") [1, 2] "/srv/app"
        ⟨⟨true, "", ""⟩, fun c => c = .mkdirP "/srv/app", "exit 2", "tar: bad gz"⟩).res
      = .error "failed to extract tar: exit 2 (stderr: tar: bad gz)" := by
  have hthm := (claim_C5_uploadDirTar_temp_path_and_chain (fun _ => "0123456789abcdef")
      [1, 2] "/srv/app"
      ⟨⟨true, "", ""⟩, fun c => c = .mkdirP "/srv/app", "exit 2", "tar: bad gz"⟩).2.2.2
      rfl (by decide) (by decide)
  exact ⟨by simpa using hthm.1, by simpa using hthm.2⟩

/-! ## Theorems: upload-step addressing (C7) and step dispatch (C10) -/

/-- Auxiliary: the first-colon split fails exactly on colon-free
character lists. -/
theorem splitFirstColon_eq_none_iff (cs : List Char) :
    splitFirstColon cs = none ↔ ':' ∉ cs := by
  induction cs with
  | nil => simp [splitFirstColon]
  | cons c cs ih =>
    by_cases hc : c = ':'
    · subst hc; simp [splitFirstColon]
    · cases hsp : splitFirstColon cs with
      | none =>
        have hnotin : ':' ∉ cs := ih.mp hsp
        have hnec : ¬ (':' = c) := fun h2 => hc h2.symm
        simp [splitFirstColon, hc, hsp, hnec, hnotin]
      | some pr =>
        obtain ⟨l, r⟩ := pr
        have hin : ':' ∈ cs := by
          by_contra hmem
          rw [ih.mpr hmem] at hsp
          cases hsp
        simp [splitFirstColon, hc, hsp, hin]

/-- Counterexample to claim C7: the upload value `":remote"` splits into
the segments `""` and `"remote"` — the first one empty — yet the step is
NOT rejected with a configuration error: it dispatches to an upload with
an empty local path. -/
theorem claim_C7_counterexample_empty_segment_accepted :
    runScriptChoose ⟨"", ":remote", "", "", ""⟩
      = .ok (some (.uploadA "" "remote")) := rfl

/-- Claim C7 (amended): every upload-type step value (upload,
upload_dir, upload_tar) is split at the first ':'; the step fails with
its configuration error (before any client/network use) exactly when
the value contains no colon, and otherwise dispatches the two segments;
the segments are not required to be non-empty.  Each conjunct is stated
under the dispatch-priority condition that puts the step into that
branch. -/
theorem claim_C7_amended_colon_required (sc : Script) :
    (sc.Local = "" → sc.Upload ≠ "" →
      (':' ∉ sc.Upload.data →
        runScriptChoose sc
          = .error ("invalid upload format: " ++ sc.Upload ++ " (expected 'local:remote')"))
      ∧ (∀ l r, splitFirstColon sc.Upload.data = some (l, r) →
        runScriptChoose sc = .ok (some (.uploadA (String.mk l) (String.mk r)))))
    ∧ (sc.Local = "" → sc.Upload = "" → sc.UploadDir ≠ "" →
      (':' ∉ sc.UploadDir.data →
        runScriptChoose sc
          = .error ("invalid upload_dir format: " ++ sc.UploadDir ++ " (expected 'local:remote')"))
      ∧ (∀ l r, splitFirstColon sc.UploadDir.data = some (l, r) →
        runScriptChoose sc = .ok (some (.uploadDirA (String.mk l) (String.mk r)))))
    ∧ (sc.Local = "" → sc.Upload = "" → sc.UploadDir = "" → sc.UploadTar ≠ "" →
      (':' ∉ sc.UploadTar.data →
        runScriptChoose sc
          = .error ("invalid upload_tar format: " ++ sc.UploadTar ++ " (expected 'local:remote')"))
      ∧ (∀ l r, splitFirstColon sc.UploadTar.data = some (l, r) →
        runScriptChoose sc = .ok (some (.uploadTarA (String.mk l) (String.mk r))))) := by
  refine ⟨?_, ?_, ?_⟩
  · intro hl hu
    constructor
    · intro hnc
      have hsp : splitFirstColon sc.Upload.data = none :=
        (splitFirstColon_eq_none_iff sc.Upload.data).mpr hnc
      simp [runScriptChoose, splitN2, hl, hu, hsp]
    · intro l r hsp
      simp [runScriptChoose, splitN2, hl, hu, hsp]
  · intro hl hu hd
    constructor
    · intro hnc
      have hsp : splitFirstColon sc.UploadDir.data = none :=
        (splitFirstColon_eq_none_iff sc.UploadDir.data).mpr hnc
      simp [runScriptChoose, splitN2, hl, hu, hd, hsp]
    · intro l r hsp
      simp [runScriptChoose, splitN2, hl, hu, hd, hsp]
  · intro hl hu hd ht
    constructor
    · intro hnc
      have hsp : splitFirstColon sc.UploadTar.data = none :=
        (splitFirstColon_eq_none_iff sc.UploadTar.data).mpr hnc
      simp [runScriptChoose, splitN2, hl, hu, hd, ht, hsp]
    · intro l r hsp
      simp [runScriptChoose, splitN2, hl, hu, hd, ht, hsp]

/-- Witness for the amended C7: the colon-free value `"nocolon"` is
rejected with the matching configuration error in each of the three
upload-type branches. -/
theorem claim_C7_witness :
    runScriptChoose ⟨"", "nocolon", "", "", ""⟩
      = .error "invalid upload format: nocolon (expected 'local:remote')"
    ∧ runScriptChoose ⟨"", "", "nocolon", "", ""⟩
      = .error "invalid upload_dir format: nocolon (expected 'local:remote')"
    ∧ runScriptChoose ⟨"", "", "", "nocolon", ""⟩
      = .error "invalid upload_tar format: nocolon (expected 'local:remote')" := by
  refine ⟨?_, ?_, ?_⟩
  · have hthm := ((claim_C7_amended_colon_required ⟨"", "nocolon", "", "", ""⟩).1
      rfl (by decide)).1 (by decide)
    simpa using hthm
  · have hthm := ((claim_C7_amended_colon_required ⟨"", "", "nocolon", "", ""⟩).2.1
      rfl rfl (by decide)).1 (by decide)
    simpa using hthm
  · have hthm := ((claim_C7_amended_colon_required ⟨"", "", "", "nocolon", ""⟩).2.2
      rfl rfl rfl (by decide)).1 (by decide)
    simpa using hthm

/-- Claim C10: a step with none of the five fields set is a successful
no-op dispatching no action; otherwise exactly the single action of the
first non-empty field in the fixed order local, upload, upload_dir,
upload_tar, run is chosen, the later fields being ignored. -/
theorem claim_C10_step_dispatch_priority (sc : Script) :
    (sc.Local = "" ∧ sc.Upload = "" ∧ sc.UploadDir = "" ∧ sc.UploadTar = "" ∧ sc.Run = "" →
      runScriptChoose sc = .ok none)
    ∧ (sc.Local ≠ "" → runScriptChoose sc = .ok (some (.localA sc.Local)))
    ∧ (sc.Local = "" → sc.Upload ≠ "" →
      runScriptChoose sc
        = match splitN2 sc.Upload with
          | [l, r] => .ok (some (.uploadA l r))
          | _ => .error ("invalid upload format: " ++ sc.Upload ++ " (expected 'local:remote')"))
    ∧ (sc.Local = "" → sc.Upload = "" → sc.UploadDir ≠ "" →
      runScriptChoose sc
        = match splitN2 sc.UploadDir with
          | [l, r] => .ok (some (.uploadDirA l r))
          | _ => .error ("invalid upload_dir format: " ++ sc.UploadDir ++ " (expected 'local:remote')"))
    ∧ (sc.Local = "" → sc.Upload = "" → sc.UploadDir = "" → sc.UploadTar ≠ "" →
      runScriptChoose sc
        = match splitN2 sc.UploadTar with
          | [l, r] => .ok (some (.uploadTarA l r))
          | _ => .error ("invalid upload_tar format: " ++ sc.UploadTar ++ " (expected 'local:remote')"))
    ∧ (sc.Local = "" → sc.Upload = "" → sc.UploadDir = "" → sc.UploadTar = "" → sc.Run ≠ "" →
      runScriptChoose sc = .ok (some (.runA sc.Run))) := by
  refine ⟨?_, ?_, ?_, ?_, ?_, ?_⟩
  · rintro ⟨h1, h2, h3, h4, h5⟩; simp [runScriptChoose, h1, h2, h3, h4, h5]
  · intro h1; simp [runScriptChoose, h1]
  · intro h1 h2; simp [runScriptChoose, h1, h2]
  · intro h1 h2 h3; simp [runScriptChoose, h1, h2, h3]
  · intro h1 h2 h3 h4; simp [runScriptChoose, h1, h2, h3, h4]
  · intro h1 h2 h3 h4 h5; simp [runScriptChoose, h1, h2, h3, h4, h5]

/-- Witness for C10: a step with both a local command and a remote
command set executes only the local command; the all-empty step is a
no-op. -/
theorem claim_C10_witness :
    runScriptChoose ⟨"make build", "a:b", "", "", "systemctl restart app"⟩
      = .ok (some (.localA "make build"))
    ∧ runScriptChoose ⟨"", "", "", "", ""⟩ = .ok none := by
  constructor
  · exact (claim_C10_step_dispatch_priority
      ⟨"make build", "a:b", "", "", "systemctl restart app"⟩).2.1 (by decide)
  · exact (claim_C10_step_dispatch_priority ⟨"", "", "", "", ""⟩).1
      ⟨rfl, rfl, rfl, rfl, rfl⟩

/-! ## Theorems: checksum-differential directory upload (C4, C8, C9) -/

/-- Auxiliary: the written stream of a single-file upload is always the
full framed stream, whatever the remote outcomes are. -/
theorem uploadFile_stream_eq (h : List Nat → String) (c : List Nat) (p : String)
    (env : FileTransferEnv) : (uploadFile h c p env).1 = scpStream c (baseName p) := by
  by_cases hok : env.scp.ok
  · cases hq : getRemoteChecksum env.checkRes with
    | error e => simp [uploadFile, hok, hq]
    | ok d => by_cases hde : h c = d <;> simp [uploadFile, hok, hq, hde]
  · simp [uploadFile, hok]

/-- Auxiliary: full characterization of the `UploadDir` walk when every
remote mkdir succeeds and every needed upload succeeds: matching files
are counted as skipped, all other files are uploaded in walk order. -/
theorem walkEntries_characterization (h : List Nat → String)
    (mapping : List (String × String)) (remoteDir : String) (env : DirUploadEnv)
    (entries : List FsEntry)
    (hmk : ∀ rel, FsEntry.dirE rel ∈ entries → env.mkdirOk (joinPath remoteDir rel) = true)
    (hup : ∀ rel c, FsEntry.fileE rel c ∈ entries →
        ¬ lookupA mapping rel = some (h c) →
        (uploadFile h c (joinPath remoteDir rel) (env.fileEnv rel)).2 = .ok ()) :
    ∀ up sk sent, walkEntries h mapping remoteDir env entries up sk sent
      = (up + (changedPaths h mapping entries).length,
         sk + matchCount h mapping entries,
         sent ++ changedPaths h mapping entries, none) := by
  induction entries with
  | nil => intro up sk sent; simp [walkEntries, changedPaths, matchCount]
  | cons e rest ih =>
    intro up sk sent
    have hmk2 : ∀ rel, FsEntry.dirE rel ∈ rest → env.mkdirOk (joinPath remoteDir rel) = true :=
      fun rel hr => hmk rel (List.mem_cons_of_mem _ hr)
    have hup2 : ∀ rel c, FsEntry.fileE rel c ∈ rest →
        ¬ lookupA mapping rel = some (h c) →
        (uploadFile h c (joinPath remoteDir rel) (env.fileEnv rel)).2 = .ok () :=
      fun rel c hr => hup rel c (List.mem_cons_of_mem _ hr)
    cases e with
    | dirE rel =>
      have hm := hmk rel (List.mem_cons_self _ _)
      rw [walkEntries, if_pos hm, ih hmk2 hup2 up sk sent]
      simp [changedPaths, matchCount, List.filterMap_cons, List.filter_cons]
    | fileE rel c =>
      by_cases hm : lookupA mapping rel = some (h c)
      · rw [walkEntries, if_pos hm, ih hmk2 hup2 up (sk + 1) sent]
        simp only [changedPaths, matchCount, List.filterMap_cons, List.filter_cons, hm]
        simp [changedPaths, matchCount]
        omega
      · have hu := hup rel c (List.mem_cons_self _ _) hm
        rw [walkEntries, if_neg hm, hu, ih hmk2 hup2 (up + 1) sk (sent ++ [rel])]
        simp only [changedPaths, matchCount, List.filterMap_cons, List.filter_cons, hm,
          List.append_assoc, List.singleton_append, Prod.mk.injEq]
        simp [changedPaths, matchCount]
        omega

/-- Demo digest function used by concrete scenarios: the digest of a
byte list is `h<length>`. -/
def hashLen : List Nat → String := fun c => "h" ++ toString c.length

/-- Demo remote environment for `UploadDir` scenarios: the remote
directory `/d` already holds file `x` with digest `h1`; every mkdir
succeeds and every transferred file verifies. -/
def dirEnvDemo : DirUploadEnv where
  mkRootOk := true
  queryRes := ⟨true, "h1 /d/x", ""⟩
  mkdirOk := fun _ => true
  fileEnv := fun rel => ⟨⟨true, "", ""⟩, ⟨true, (if rel = "y" then "h2" else "h3") ++ " /d/" ++ rel, ""⟩⟩

/-- Demo local tree: `x` unchanged (digest `h1` matches the remote),
`y` and `z` differ. -/
def entriesThree : List FsEntry := [.fileE "x" [7], .fileE "y" [7, 8], .fileE "z" [7, 8, 9]]

/-- Demo local tree without the unchanged file `x`. -/
def entriesTwo : List FsEntry := [.fileE "y" [7, 8], .fileE "z" [7, 8, 9]]

/-- Counterexample to claim C4: in the single-file form the remote
digest already equals the local digest (`h1`), yet the upload still
writes the full 12-byte framed stream — not zero bytes.  The code never
queries the remote digest before transferring; it only verifies
afterwards. -/
theorem claim_C4_counterexample_single_file_always_transfers :
    getRemoteChecksum ⟨true, "h1 /r/f", ""⟩ = .ok (hashLen [7])
    ∧ (uploadFile hashLen [7] "/r/f" ⟨⟨true, "", ""⟩, ⟨true, "h1 /r/f", ""⟩⟩).1.length = 12
    ∧ (uploadFile hashLen [7] "/r/f" ⟨⟨true, "", ""⟩, ⟨true, "h1 /r/f", ""⟩⟩).1 ≠ []
    ∧ (uploadFile hashLen [7] "/r/f" ⟨⟨true, "", ""⟩, ⟨true, "h1 /r/f", ""⟩⟩).2 = .ok () :=
  ⟨rfl, by decide, by decide, rfl⟩

/-- Claim C4 (amended): in the directory form, every file whose local
digest matches the remote mapping is skipped (skip count increments,
upload count does not, no bytes are sent for it) and exactly the
non-matching files are uploaded; the single-file form never skips — it
always writes the full framed stream and verifies the digest only after
the transfer. -/
theorem claim_C4_amended_differential_skip (h : List Nat → String)
    (entries : List FsEntry) (remoteDir : String) (env : DirUploadEnv)
    (hroot : env.mkRootOk = true)
    (hmk : ∀ rel, FsEntry.dirE rel ∈ entries → env.mkdirOk (joinPath remoteDir rel) = true)
    (hup : ∀ rel c, FsEntry.fileE rel c ∈ entries →
        ¬ lookupA (effMapping remoteDir env.queryRes) rel = some (h c) →
        (uploadFile h c (joinPath remoteDir rel) (env.fileEnv rel)).2 = .ok ()) :
    (uploadDir h entries remoteDir env).skipped
      = matchCount h (effMapping remoteDir env.queryRes) entries
    ∧ (uploadDir h entries remoteDir env).uploaded
      = (changedPaths h (effMapping remoteDir env.queryRes) entries).length
    ∧ (uploadDir h entries remoteDir env).sent
      = changedPaths h (effMapping remoteDir env.queryRes) entries
    ∧ (∀ rel, (∀ c, FsEntry.fileE rel c ∈ entries →
          lookupA (effMapping remoteDir env.queryRes) rel = some (h c)) →
        rel ∉ (uploadDir h entries remoteDir env).sent)
    ∧ (∀ (c2 : List Nat) (p2 : String) (env2 : FileTransferEnv),
        (uploadFile h c2 p2 env2).1 = scpStream c2 (baseName p2)) := by
  have hw := walkEntries_characterization h (effMapping remoteDir env.queryRes)
    remoteDir env entries hmk hup 0 0 []
  have hres : uploadDir h entries remoteDir env
      = { uploaded := (changedPaths h (effMapping remoteDir env.queryRes) entries).length,
          skipped := matchCount h (effMapping remoteDir env.queryRes) entries,
          sent := changedPaths h (effMapping remoteDir env.queryRes) entries,
          ret := ((changedPaths h (effMapping remoteDir env.queryRes) entries).length, none) } := by
    simp [uploadDir, hroot, hw]
  refine ⟨by rw [hres], by rw [hres], by rw [hres], ?_, fun c2 p2 env2 => uploadFile_stream_eq h c2 p2 env2⟩
  intro rel hall hmem
  rw [hres] at hmem
  simp only [changedPaths, List.mem_filterMap] at hmem
  obtain ⟨e, he, hsome⟩ := hmem
  cases e with
  | dirE d => simp at hsome
  | fileE rel2 c =>
    by_cases hm : lookupA (effMapping remoteDir env.queryRes) rel2 = some (h c)
    · simp [hm] at hsome
    · simp [hm] at hsome
      subst hsome
      exact hm (hall c he)

/-- Witness for the amended C4 at a concrete input: `x` unchanged and
`y` changed — one skip, one upload, only `y` transferred. -/
theorem claim_C4_witness :
    (uploadDir hashLen [.fileE "x" [7], .fileE "y" [7, 8]] "/d" dirEnvDemo).skipped = 1
    ∧ (uploadDir hashLen [.fileE "x" [7], .fileE "y" [7, 8]] "/d" dirEnvDemo).uploaded = 1
    ∧ (uploadDir hashLen [.fileE "x" [7], .fileE "y" [7, 8]] "/d" dirEnvDemo).sent = ["y"] := by
  have hthm := claim_C4_amended_differential_skip hashLen
      [.fileE "x" [7], .fileE "y" [7, 8]] "/d" dirEnvDemo rfl
      (by intro rel hr; simp at hr)
      (by
        intro rel c hr hne
        simp at hr
        rcases hr with ⟨hrel, hc⟩ | ⟨hrel, hc⟩
        · subst hrel; subst hc
          exact absurd (by decide) hne
        · subst hrel; subst hc
          rfl)
  exact ⟨hthm.1.trans (by decide), hthm.2.1.trans (by decide), hthm.2.2.1.trans (by decide)⟩

/-- Counterexample to claim C8: the value `UploadDir` returns to its
caller does not contain the skip count — the 3-file scenario with one
unchanged file returns exactly what the 2-file scenario with no
unchanged file returns, although their skip counts differ. -/
theorem claim_C8_counterexample_skipped_not_returned :
    (uploadDir hashLen entriesThree "/d" dirEnvDemo).ret
      = (uploadDir hashLen entriesTwo "/d" dirEnvDemo).ret
    ∧ (uploadDir hashLen entriesThree "/d" dirEnvDemo).skipped = 1
    ∧ (uploadDir hashLen entriesTwo "/d" dirEnvDemo).skipped = 0 :=
  ⟨rfl, rfl, rfl⟩

/-- Claim C8 (amended): the directory form accumulates both counters
internally, but returns only the uploaded count (with any error) to its
caller; in the 3-file example with one unchanged file the internal
counts are uploaded=2 and skipped=1 and the caller receives 2. -/
theorem claim_C8_amended_returns_uploaded_only :
    (∀ (h : List Nat → String) (entries : List FsEntry) (rd : String) (env : DirUploadEnv),
      (uploadDir h entries rd env).ret.1 = (uploadDir h entries rd env).uploaded)
    ∧ (uploadDir hashLen entriesThree "/d" dirEnvDemo).uploaded = 2
    ∧ (uploadDir hashLen entriesThree "/d" dirEnvDemo).skipped = 1
    ∧ (uploadDir hashLen entriesThree "/d" dirEnvDemo).ret = (2, none) := by
  refine ⟨?_, rfl, rfl, rfl⟩
  intro h entries rd env
  by_cases hr : env.mkRootOk <;> simp [uploadDir, hr]

/-- Auxiliary: with an empty remote mapping no file matches, so every
file is a changed path. -/
theorem changedPaths_nil_mapping (h : List Nat → String) (entries : List FsEntry) :
    changedPaths h [] entries = filePaths entries := by
  induction entries with
  | nil => simp [changedPaths, filePaths]
  | cons e rest ih =>
    cases e <;> simp [changedPaths, filePaths, List.filterMap_cons, lookupA, ih]

/-- Auxiliary: with an empty remote mapping nothing is counted as a
match. -/
theorem matchCount_nil_mapping (h : List Nat → String) (entries : List FsEntry) :
    matchCount h [] entries = 0 := by
  induction entries with
  | nil => simp [matchCount]
  | cons e rest ih =>
    cases e <;> simp [matchCount, List.filter_cons, lookupA] <;>
      simpa [matchCount] using ih

/-- Claim C9: when the one remote directory-checksum query fails, the
directory upload does not fail — it proceeds with the empty mapping, so
nothing is skipped and every local file is uploaded. -/
theorem claim_C9_query_failure_uploads_all (h : List Nat → String)
    (entries : List FsEntry) (remoteDir : String) (env : DirUploadEnv)
    (hroot : env.mkRootOk = true) (hq : env.queryRes.ok = false)
    (hmk : ∀ rel, FsEntry.dirE rel ∈ entries → env.mkdirOk (joinPath remoteDir rel) = true)
    (hup : ∀ rel c, FsEntry.fileE rel c ∈ entries →
        (uploadFile h c (joinPath remoteDir rel) (env.fileEnv rel)).2 = .ok ()) :
    (uploadDir h entries remoteDir env).sent = filePaths entries
    ∧ (uploadDir h entries remoteDir env).skipped = 0
    ∧ (uploadDir h entries remoteDir env).ret = ((filePaths entries).length, none) := by
  have hmap : effMapping remoteDir env.queryRes = [] := by
    simp [effMapping, getRemoteDirChecksums, hq]
  have hup2 : ∀ rel c, FsEntry.fileE rel c ∈ entries →
      ¬ lookupA (effMapping remoteDir env.queryRes) rel = some (h c) →
      (uploadFile h c (joinPath remoteDir rel) (env.fileEnv rel)).2 = .ok () :=
    fun rel c hr _ => hup rel c hr
  have hw := walkEntries_characterization h (effMapping remoteDir env.queryRes)
    remoteDir env entries hmk hup2 0 0 []
  rw [hmap] at hw
  rw [changedPaths_nil_mapping, matchCount_nil_mapping] at hw
  have hres : uploadDir h entries remoteDir env
      = { uploaded := (filePaths entries).length, skipped := 0,
          sent := filePaths entries, ret := ((filePaths entries).length, none) } := by
    simp [uploadDir, hroot, hmap, hw]
  rw [hres]
  exact ⟨rfl, rfl, rfl⟩

/-- Witness for C9 at a concrete input: the query fails (new remote
directory) and both local files are uploaded, none skipped. -/
theorem claim_C9_witness :
    (uploadDir hashLen [.dirE "sub", .fileE "a" [1], .fileE "sub/b" [2]] "/srv"
        ⟨true, ⟨false, "", "find: no such dir"⟩, fun _ => true,
          fun _ => ⟨⟨true, "", ""⟩, ⟨true, "h1 q", ""⟩⟩⟩).sent = ["a", "sub/b"]
    ∧ (uploadDir hashLen [.dirE "sub", .fileE "a" [1], .fileE "sub/b" [2]] "/srv"
        ⟨true, ⟨false, "", "find: no such dir"⟩, fun _ => true,
          fun _ => ⟨⟨true, "", ""⟩, ⟨true, "h1 q", ""⟩⟩⟩).skipped = 0
    ∧ (uploadDir hashLen [.dirE "sub", .fileE "a" [1], .fileE "sub/b" [2]] "/srv"
        ⟨true, ⟨false, "", "find: no such dir"⟩, fun _ => true,
          fun _ => ⟨⟨true, "", ""⟩, ⟨true, "h1 q", ""⟩⟩⟩).ret = (2, none) := by
  have hthm := claim_C9_query_failure_uploads_all hashLen
      [.dirE "sub", .fileE "a" [1], .fileE "sub/b" [2]] "/srv"
      ⟨true, ⟨false, "", "find: no such dir"⟩, fun _ => true,
        fun _ => ⟨⟨true, "", ""⟩, ⟨true, "h1 q", ""⟩⟩⟩ rfl rfl
      (by intro rel hr; rfl)
      (by intro rel c hr; simp at hr; rcases hr with ⟨hrel, hc⟩ | ⟨hrel, hc⟩ <;>
        (subst hrel; subst hc; rfl))
  exact ⟨hthm.1.trans (by decide), hthm.2.1, hthm.2.2.trans (by decide)⟩

/-! ## Theorems: sequential execution (C3) -/

/-- Auxiliary: a host whose steps all succeed runs every given step in
order. -/
theorem runHostSteps_all_ok (s : String) (exec : String → Nat → Except String Unit)
    (idxs : List Nat) (hok : ∀ i ∈ idxs, exec s i = .ok ()) :
    runHostSteps s exec idxs = (idxs.map (fun i => (s, i)), .ok ()) := by
  induction idxs with
  | nil => simp [runHostSteps]
  | cons i rest ih =>
    have h1 := hok i (List.mem_cons_self _ _)
    have h2 := ih (fun k hk => hok k (List.mem_cons_of_mem _ hk))
    simp [runHostSteps, h1, h2]

/-- Auxiliary: the step loop stops at the first failing step, having
attempted exactly the steps up to and including it. -/
theorem runHostSteps_first_fail (s : String) (exec : String → Nat → Except String Unit)
    (pre : List Nat) (j : Nat) (post : List Nat) (e : String)
    (hok : ∀ i ∈ pre, exec s i = .ok ()) (hfail : exec s j = .error e) :
    runHostSteps s exec (pre ++ j :: post) = ((pre ++ [j]).map (fun i => (s, i)), .error e) := by
  induction pre with
  | nil => simp [runHostSteps, hfail]
  | cons i rest ih =>
    have h1 := hok i (List.mem_cons_self _ _)
    have h2 := ih (fun k hk => hok k (List.mem_cons_of_mem _ hk))
    simp [runHostSteps, h1, h2]

/-- Auxiliary: split `range n` at an index `j < n`. -/
theorem range_decomp (j n : Nat) (hj : j < n) :
    List.range n = List.range j ++ j :: List.range' (j + 1) (n - j - 1) := by
  have h1 : List.range' j (n - j) = j :: List.range' (j + 1) (n - j - 1) := by
    have he : n - j = (n - j - 1) + 1 := by omega
    rw [he, List.range'_succ]
    simp
  have h2 : List.range' 0 j ++ List.range' j (n - j) = List.range' 0 n := by
    have ha := List.range'_append_1 0 j (n - j)
    have he : n - j + j = n := by omega
    simpa [he] using ha
  rw [List.range_eq_range', List.range_eq_range', ← h2, h1]

/-- Claim C3: in a sequential run the hosts are processed in declared
order, each running all steps in order; the first failing step on any
host ends the whole task with an error naming that host, and no step of
any later-declared host is ever attempted — the trace contains exactly
the steps of the earlier hosts and of the failing host up to its
failure. -/
theorem claim_C3_runSequential_first_failure (pre post : List String) (s : String)
    (known : String → Bool) (n : Nat) (exec : String → Nat → Except String Unit)
    (hk : ∀ t ∈ pre ++ s :: post, known t = true)
    (hpre : ∀ t ∈ pre, ∀ i, exec t i = .ok ())
    (j : Nat) (hj : j < n) (e : String)
    (hbef : ∀ i < j, exec s i = .ok ()) (hfail : exec s j = .error e) :
    runSequential (pre ++ s :: post) known n exec
      = ((pre.map (fun t => (List.range n).map (fun i => (t, i)))).flatten
          ++ (List.range (j + 1)).map (fun i => (s, i)),
         .error ("[" ++ s ++ "] script failed: " ++ e)) := by
  induction pre with
  | nil =>
    have hks := hk s (by simp)
    have hsteps : runHostSteps s exec (List.range n)
        = ((List.range (j + 1)).map (fun i => (s, i)), .error e) := by
      rw [range_decomp j n hj]
      have hok : ∀ i ∈ List.range j, exec s i = .ok () := by
        intro i hi
        exact hbef i (List.mem_range.mp hi)
      rw [runHostSteps_first_fail s exec (List.range j) j _ e hok hfail]
      rw [← List.range_succ]
    simp only [List.nil_append, runSequential, hks, if_true, hsteps]
    simp
  | cons t rest ih =>
    have hkt : known t = true := hk t (by simp)
    have htok : ∀ i ∈ List.range n, exec t i = .ok () :=
      fun i _ => hpre t (by simp) i
    have hsteps := runHostSteps_all_ok t exec (List.range n) htok
    have hih := ih (fun u hu => hk u (by simp at hu ⊢; tauto))
      (fun u hu i => hpre u (List.mem_cons_of_mem _ hu) i)
    simp only [List.cons_append, runSequential, hkt, if_true, hsteps]
    simp [hih, List.append_assoc]

/-- Witness for C3 at a concrete input: hosts `a`, `b`, `c` with two
steps; step 1 fails on `b`, so `c` is never attempted and the error
names `b`. -/
theorem claim_C3_witness :
    runSequential ["a", "b", "c"] (fun _ => true) 2
        (fun t i => if t = "b" ∧ i = 1 then .error "boom" else .ok ())
      = ([("a", 0), ("a", 1), ("b", 0), ("b", 1)], .error "[b] script failed: boom") := by
  have hthm := claim_C3_runSequential_first_failure ["a"] ["c"] "b" (fun _ => true) 2
      (fun t i => if t = "b" ∧ i = 1 then .error "boom" else .ok ())
      (by intro t ht; rfl)
      (by intro t ht i; simp at ht; subst ht; simp)
      1 (by decide) "boom"
      (by intro i hi; interval_cases i; simp)
      (by simp)
  simpa using hthm

/-! ## Theorems: parallel execution (C2) -/

/-- Auxiliary: the error channel after all scheduled worker commits
holds exactly the host-tagged errors in completion order. -/
theorem parFold_errCh (servers : List String) (work : String → WorkerOut)
    (sched : List Nat) (st : ParState) :
    (sched.foldl (fun st2 i => workerCommit servers work i st2) st).errCh
      = st.errCh ++ completionErrors servers work sched := by
  induction sched generalizing st with
  | nil => simp [completionErrors]
  | cons i rest ih =>
    rw [List.foldl_cons, ih]
    simp only [completionErrors, List.filterMap_cons]
    cases hg : servers[i]? with
    | none => simp [workerCommit, hg, completionErrors]
    | some s =>
      cases he : (work s).err with
      | none => simp [workerCommit, hg, he, completionErrors]
      | some e => simp [workerCommit, hg, he, completionErrors, List.append_assoc]

/-- Auxiliary: the results map after all scheduled worker commits holds
each committed worker's private buffer under its host name. -/
theorem parFold_results (servers : List String) (work : String → WorkerOut)
    (sched : List Nat) (st : ParState) :
    (sched.foldl (fun st2 i => workerCommit servers work i st2) st).results
      = (sched.filterMap (fun i => servers[i]?.map (fun s => (s, (work s).buf)))).reverse
          ++ st.results := by
  induction sched generalizing st with
  | nil => simp
  | cons i rest ih =>
    rw [List.foldl_cons, ih]
    simp only [List.filterMap_cons]
    cases hg : servers[i]? with
    | none => simp [workerCommit, hg]
    | some s =>
      cases he : (work s).err with
      | none => simp [workerCommit, hg, he, List.reverse_cons, List.append_assoc]
      | some e => simp [workerCommit, hg, he, List.reverse_cons, List.append_assoc]

/-- Auxiliary: every scheduled valid worker signals the wait group
exactly once. -/
theorem parFold_done (servers : List String) (work : String → WorkerOut)
    (sched : List Nat) (st : ParState) :
    (∀ i ∈ sched, i < servers.length) →
    (sched.foldl (fun st2 i => workerCommit servers work i st2) st).done
      = st.done + sched.length := by
  induction sched generalizing st with
  | nil => intro _; simp
  | cons i rest ih =>
    intro hvalid
    have hi : i < servers.length := hvalid i (List.mem_cons_self _ _)
    obtain ⟨s, hg⟩ : ∃ s, servers[i]? = some s := by
      cases hg : servers[i]? with
      | none => exact absurd (List.getElem?_eq_none_iff.mp hg) (by omega)
      | some s => exact ⟨s, rfl⟩
    rw [List.foldl_cons,
      ih (workerCommit servers work i st) (fun k hk => hvalid k (List.mem_cons_of_mem _ hk))]
    cases he : (work s).err <;> simp [workerCommit, hg, he] <;> omega

/-- Auxiliary: looking up a key in an association list whose values are
all given by `f` of their key returns `f` of the key whenever the key is
present. -/
theorem lookupA_of_consistent (f : String → String) (l : List (String × String))
    (s : String) (hcons : ∀ p ∈ l, p.2 = f p.1) (hmem : s ∈ l.map Prod.fst) :
    lookupA l s = some (f s) := by
  induction l with
  | nil => simp at hmem
  | cons p rest ih =>
    obtain ⟨k, v⟩ := p
    have hv : v = f k := hcons (k, v) (List.mem_cons_self _ _)
    by_cases hk : k = s
    · subst hk; subst hv; simp [lookupA]
    · rw [lookupA]
      rw [if_neg hk]
      apply ih (fun q hq => hcons q (List.mem_cons_of_mem _ hq))
      simp only [List.map_cons, List.mem_cons] at hmem
      rcases hmem with h | h
      · exact absurd h.symm hk
      · exact h

/-- Auxiliary: indexing every position of a list in order returns the
list. -/
theorem range_filterMap_get (l : List String) :
    (List.range l.length).filterMap (fun i => l[i]?) = l := by
  induction l with
  | nil => simp
  | cons a t ih =>
    rw [List.length_cons, List.range_succ_eq_map, List.filterMap_cons, List.filterMap_map]
    have hcomp : ((fun i => (a :: t)[i]?) ∘ Nat.succ) = fun i => t[i]? := by
      funext i; simp
    rw [hcomp, ih]
    simp

/-- Auxiliary: the keys of the committed results are the scheduled
hosts. -/
theorem parResults_keys (servers : List String) (work : String → WorkerOut)
    (sched : List Nat) :
    (sched.filterMap (fun i => servers[i]?.map (fun s => (s, (work s).buf)))).map Prod.fst
      = sched.filterMap (fun i => servers[i]?) := by
  induction sched with
  | nil => simp
  | cons i rest ih =>
    rw [List.filterMap_cons, List.filterMap_cons]
    cases hg : servers[i]? <;> simp [hg, ih]

/-- Auxiliary: every committed result pair stores the worker's own
buffer. -/
theorem parResults_consistent (servers : List String) (work : String → WorkerOut)
    (sched : List Nat) :
    ∀ p ∈ sched.filterMap (fun i => servers[i]?.map (fun s => (s, (work s).buf))),
      p.2 = (work p.1).buf := by
  intro p hp
  rw [List.mem_filterMap] at hp
  obtain ⟨i, _, hi⟩ := hp
  cases hg : servers[i]? with
  | none => rw [hg] at hi; cases hi
  | some s =>
    rw [hg] at hi
    simp only [Option.map_some', Option.some.injEq] at hi
    subst hi
    rfl

/-- Auxiliary: a mapping to `some` values along a list turns `filterMap`
into `map`. -/
theorem filterMap_eq_map_of {α β : Type} (g : α → Option β) (f : α → β) (l : List α)
    (hg : ∀ x ∈ l, g x = some (f x)) : l.filterMap g = l.map f := by
  induction l with
  | nil => simp
  | cons a t ih =>
    rw [List.filterMap_cons, hg a (List.mem_cons_self _ _), List.map_cons,
      ih (fun x hx => hg x (List.mem_cons_of_mem _ hx))]

/-- Claim C2: a parallel batch over declared hosts commits one worker
per host (the wait-group count reaches the host count before anything is
flushed), and whatever completion order the scheduler picks, the output
flushed to the sink is the private buffers in original host-declaration
order, and the returned error is the first failing worker's host-tagged
error in worker-completion order. -/
theorem claim_C2_runParallel_ordered_flush (servers : List String)
    (known : String → Bool) (work : String → WorkerOut) (sched : List Nat)
    (hk : ∀ s ∈ servers, known s = true)
    (hperm : sched.Perm (List.range servers.length)) :
    runParallel servers known work sched
      = (servers.map (fun s => (work s).buf), (completionErrors servers work sched).head?)
    ∧ doneCount servers work sched = servers.length := by
  have hfind : servers.find? (fun s => ! known s) = none := by
    rw [List.find?_eq_none]
    intro x hx
    simp [hk x hx]
  have hvalid : ∀ i ∈ sched, i < servers.length := by
    intro i hi
    have := hperm.mem_iff.mp hi
    exact List.mem_range.mp this
  constructor
  · simp only [runParallel, hfind]
    have hresults := parFold_results servers work sched ⟨[], [], 0⟩
    have herr := parFold_errCh servers work sched ⟨[], [], 0⟩
    simp only [List.append_nil] at hresults
    simp only [List.nil_append] at herr
    have hlook : ∀ s ∈ servers,
        lookupA ((sched.filterMap
          (fun i => servers[i]?.map (fun t => (t, (work t).buf)))).reverse) s
          = some ((work s).buf) := by
      intro s hs
      apply lookupA_of_consistent (fun t => (work t).buf)
      · intro p hp
        exact parResults_consistent servers work sched p (List.mem_reverse.mp hp)
      · rw [List.map_reverse, List.mem_reverse, parResults_keys]
        have hpermFm := hperm.filterMap (fun i => servers[i]?)
        rw [range_filterMap_get] at hpermFm
        exact hpermFm.mem_iff.mpr hs
    rw [hresults, herr]
    refine congrArg₂ Prod.mk ?_ rfl
    exact filterMap_eq_map_of _ _ servers hlook
  · rw [doneCount, parFold_done servers work sched ⟨[], [], 0⟩ hvalid, hperm.length_eq,
      List.length_range]
    simp

/-- Demo worker results: host `a` fails with `boom`, host `b`
succeeds. -/
def workDemo : String → WorkerOut := fun s =>
  if s = "a" then ⟨"a-out", some "boom"⟩ else ⟨"b-out", none⟩

/-- Witness for C2 at a concrete input: two hosts, schedule `[1, 0]`
(host `b` finishes first) — output still flushes in declared order
`a`, `b`, and the error of `a` is returned. -/
theorem claim_C2_witness :
    runParallel ["a", "b"] (fun _ => true) workDemo [1, 0]
      = (["a-out", "b-out"], some "[a] boom")
    ∧ doneCount ["a", "b"] workDemo [1, 0] = 2 := by
  have hthm := claim_C2_runParallel_ordered_flush ["a", "b"] (fun _ => true) workDemo [1, 0]
      (fun s _ => rfl) (by decide)
  exact ⟨hthm.1.trans (by decide), hthm.2⟩

end Envir
